import Mathlib

/-!
Verification development for the IFPS (compiled Pascal-script container)
parser and disassembler in `refinery/lib/ifps.py`.

The Python source is shallowly embedded below.  Python integers are `Int`
(arbitrary precision, with explicit reductions modulo powers of two where
the source masks), byte strings are `List Nat`, dictionaries are
association lists with first-match lookup and append-on-new-key insertion
(matching CPython dict ordering), and every raising operation returns
`Except Err`.  Dynamically typed attribute slots are embedded as explicit
sum types whose arms record exactly the classes of values the source can
store there.
-/

namespace IFPS

/-- Errors. Each constructor corresponds to one raise site (or family of
raise sites) in the source; the spec's error names are used where the spec
introduces one for that site. -/
inductive Err where
  /-- `ValueError('Less than 28 bytes in file, ...')` in `IFPSFile.__init__`. -/
  | TruncatedHeader
  /-- `ValueError('Invalid magic sequence: ...')` in `IFPSFile.__init__`. -/
  | BadMagic
  /-- `NotImplementedError('This IFPS file has version ...')` in `IFPSFile.__init__`. -/
  | UnsupportedVersion
  /-- `IndexError` raised by `Variable._cast` and the `Set` key checks. -/
  | IndexOutOfRange
  /-- `TypeError('Assigning value ... to variable of type ...')` in `Variable._cast`. -/
  | TypeMismatch
  /-- `TypeError` raised by the Python runtime itself, e.g. when a bitwise
  operator is applied to a `dict` payload, or a non-bool is given to a keyed
  `Set` assignment. -/
  | TypeErr
  /-- `KeyError` from a failing dict lookup (e.g. `bbs[offset]`). -/
  | KeyError
  /-- `ValueError` from the Python runtime, e.g. `max()` of an empty dict. -/
  | ValueError
  /-- `IndexError` raised by the stack validation loop in
  `Function.get_basic_blocks`. -/
  | StackUnderflow
  /-- `RuntimeError('The jump target of instruction ... is invalid')` in
  `IFPSFile._parse_bytecode`. -/
  | BadJumpTarget
  /-- `IndexError` from a Python list subscript (e.g. `ipfs.types[i]`). -/
  | IndexError
deriving DecidableEq, Repr

/-- Type codes (`class TC(enum.IntEnum)`); the source's `Type` member is
renamed `TypeTC` because `Type` is reserved in Lean. -/
inductive TC where
  | ReturnAddress | U08 | S08 | U16 | S16 | U32 | S32 | Single | Double
  | Extended | String | Record | Array | Pointer | PChar | ResourcePointer
  | Variant | S64 | Char | WideString | WideChar | ProcPtr | StaticArray
  | Set | Currency | Class | Interface | NotificationVariant | UnicodeString
  | Enum | TypeTC | ExtClass
deriving DecidableEq, Repr

/-- `TC.width` (bytes). -/
def TC.width : TC → Nat
  | .Variant => 0x10
  | .Char => 0x01
  | .S08 => 0x01
  | .U08 => 0x01
  | .WideChar => 0x02
  | .S16 => 0x02
  | .U16 => 0x02
  | .WideString => 0x04
  | .UnicodeString => 0x04
  | .Interface => 0x04
  | .Class => 0x04
  | .PChar => 0x04
  | .String => 0x04
  | .Single => 0x04
  | .S32 => 0x04
  | .U32 => 0x04
  | .ProcPtr => 0x0C
  | .Currency => 0x08
  | .Pointer => 0x0C
  | .Double => 0x08
  | .S64 => 0x08
  | .Extended => 0x0A
  | .ReturnAddress => 0x1C
  | _ => 0

/-- Opcodes (`class Op(enum.IntEnum)`); `_INVALID` is renamed `Invalid`. -/
inductive Op where
  | Assign | Calculate | Push | PushVar | Pop | Call | Jump | JumpTrue
  | JumpFalse | Ret | StackType | PushType | Compare | CallVar | SetPtr
  | BooleanNot | Neg | SetFlag | JumpFlag | PushEH | PopEH | IntegerNot
  | SetCopyPtr | Inc | Dec | JumpPop1 | JumpPop2 | Nop | Invalid
deriving DecidableEq, Repr

/-- `Instruction.branches`. -/
def Op.branches : Op → Bool
  | .Jump | .JumpFalse | .JumpTrue | .JumpFlag | .JumpPop1 | .JumpPop2 => true
  | _ => false

/-- `Instruction.jumps`. -/
def Op.jumps : Op → Bool
  | .Jump | .JumpPop1 | .JumpPop2 => true
  | _ => false

/-- `_Op_StackD`, consumed by `Instruction.stack_delta`. -/
def Op.stackDelta : Op → Int
  | .Push => 1
  | .PushVar => 1
  | .PushType => 1
  | .Pop => -1
  | .JumpPop1 => -1
  | .JumpPop2 => -2
  | _ => 0

/-- `class VariantType(str, enum.Enum)`. -/
inductive VariantType where
  | Global | Local | Argument
deriving DecidableEq, Repr

/-- `class Variant(NamedTuple)`: a variable reference `(index, kind)`. -/
structure Variant where
  index : Int
  type : VariantType
deriving DecidableEq, Repr

/-- Python's unary `~` on arbitrary-precision integers. -/
def pyNot (x : Int) : Int := -x - 1

/-- `IFPSFile._read_variant`.  `void` is `self.void`, the flag copied from
the declaration of the function whose body is being decoded; `v` is the
32-bit word passed in by the operand decoder (always read by `reader.u32()`,
hence a `Nat` below `2 ^ 32`). The source has no failure path here, so the
embedding is a total function. -/
def read_variant (void : Bool) (v : Nat) : Variant :=
  if v < 0x40000000 then
    ⟨v, VariantType.Global⟩
  else
    let d : Int := (v : Int) - 0x60000000
    if 0 ≤ d then
      ⟨d, VariantType.Local⟩
    else
      ⟨if void then -d else pyNot d, VariantType.Argument⟩

/-- Type descriptors. The source models these as an abstract `IFPSType`
dataclass with one concrete subclass per shape; each instance stores its
`code : TC` explicitly (e.g. `TClass` is used for both `Class` and
`ExtClass`).  The embedding is one arm per subclass, each carrying the
stored code.  The display-only `_OptionsMixin` metadata (`symbol`,
`attributes`) does not influence any behavior treated here and is elided.
`TProcPtr.args` is a list of `DeclSpecParam(not b)` values whose `type`
member is always `None` at the only construction site (`_load_types`), so
the arm stores just the `input` booleans. -/
inductive IFPSType where
  | TPrimitive (code : TC)
  | TProcPtr (code : TC) (void : Bool) (args : List Bool)
  | TInterface (code : TC)
  | TClass (code : TC) (name : String)
  | TSet (code : TC) (size : Nat)
  | TArray (code : TC) (elem : IFPSType)
  | TStaticArray (code : TC) (elem : IFPSType) (size : Nat) (offset : Option Nat)
  | TRecord (code : TC) (members : List IFPSType)

/-- The `code` attribute common to all `IFPSType` subclasses. -/
def IFPSType.code : IFPSType → TC
  | .TPrimitive c => c
  | .TProcPtr c _ _ => c
  | .TInterface c => c
  | .TClass c _ => c
  | .TSet c _ => c
  | .TArray c _ => c
  | .TStaticArray c _ _ _ => c
  | .TRecord c _ => c

/-- `IFPSType.container`. -/
def IFPSType.container (t : IFPSType) : Bool :=
  match t.code with
  | .StaticArray | .Array | .Record => true
  | _ => false

/-- Python classes that `py_type` can return, plus the classes of values a
`Variable` cell can hold; used for the `isinstance` checks in
`Variable._cast`. -/
inductive PyClass where
  | int | float | str | variable | ifpstype | uuid
deriving DecidableEq, Repr

/-- Python values that flow through `Variable` cells and literal `Value`s.
Floats are embedded as rationals (no claim computes with them); `pydict`
embeds a `dict` object so that the dynamically typed `Variable.data` slot
(dict for most cells, int after an unkeyed `Set` assignment) is one value
universe, mirroring Python's untyped attribute. -/
inductive PyVal where
  | none
  | bool (b : Bool)
  | int (n : Int)
  | float (q : Rat)
  | str (s : String)
  | bytes (b : List Nat)
  | funcref (k : Nat)
  | uuid (n : Nat)
  | pylist (xs : List PyVal)
  | pydict (m : List (Option Int × PyVal))

/-- `TPrimitive.py_type` (and trivially the other subclasses'): the Python
class of values admissible for a cell of this type.  `None` (no check) is
`Option.none`. -/
def TC.pyType : TC → Option PyClass
  | .ReturnAddress => some .int
  | .U08 => some .int
  | .S08 => some .int
  | .U16 => some .int
  | .S16 => some .int
  | .U32 => some .int
  | .S32 => some .int
  | .Single => some .float
  | .Double => some .float
  | .Extended => some .float
  | .String => some .str
  | .Pointer => some .variable
  | .PChar => some .str
  | .ResourcePointer => some .variable
  | .Variant => some .variable
  | .S64 => some .int
  | .Char => some .str
  | .WideString => some .str
  | .WideChar => some .str
  | .Currency => some .float
  | .UnicodeString => some .str
  | .Enum => some .int
  | .TypeTC => some .ifpstype
  | _ => Option.none

/-- `IFPSType.py_type(key)`. For `TRecord` the source indexes
`self.members[key]`; the key has already been validated against the key
range whenever this is reached, so an out-of-range or missing key is mapped
to `Option.none` here. -/
def IFPSType.pyType (t : IFPSType) (key : Option Int) : Option PyClass :=
  match t with
  | .TPrimitive c => c.pyType
  | .TProcPtr _ _ _ => Option.none
  | .TInterface _ => some .uuid
  | .TClass _ _ => Option.none
  | .TSet _ _ => some .int
  | .TArray _ elem => elem.pyType Option.none
  | .TStaticArray _ elem _ _ => elem.pyType Option.none
  | .TRecord _ members =>
    match key with
    | some k => if k < 0 then Option.none else pyTypeAt members k.toNat
    | Option.none => Option.none
where
  /-- `self.members[key].py_type()`: positional lookup in the member list
  (an out-of-range key, already excluded by the key-range check wherever
  the source reaches this, yields `Option.none`). -/
  pyTypeAt : List IFPSType → Nat → Option PyClass
  | [], _ => Option.none
  | t :: _, 0 => t.pyType Option.none
  | _ :: rest, n + 1 => pyTypeAt rest n

/-- `TPrimitive.default`: `int() = 0`, `float() = 0.0`, `str() = ''`, and
`None` for classes that are not `int`/`float`/`str` subclasses. -/
def PyClass.defaultVal : PyClass → Option PyVal
  | .int => some (.int 0)
  | .float => some (.float 0)
  | .str => some (.str "")
  | _ => Option.none

/-- `IFPSType.default(key)`: per-subclass default used to initialize
non-container cells and to fill container gaps on read.  `TSet.default`
is `0`, `TInterface.default` is `UUID(int=0)`, `TClass`/`TProcPtr`
default to `None`. -/
def IFPSType.defaultVal (t : IFPSType) (key : Option Int) : Option PyVal :=
  match t with
  | .TPrimitive c => (c.pyType).bind PyClass.defaultVal
  | .TProcPtr _ _ _ => Option.none
  | .TInterface _ => some (.uuid 0)
  | .TClass _ _ => Option.none
  | .TSet _ _ => some (.int 0)
  | .TArray _ elem => elem.defaultVal Option.none
  | .TStaticArray _ elem _ _ => elem.defaultVal Option.none
  | .TRecord _ members =>
    match key with
    | some k => if k < 0 then Option.none else defaultAt members k.toNat
    | Option.none => Option.none
where
  /-- `self.members[key].default()`: positional lookup in the member list. -/
  defaultAt : List IFPSType → Nat → Option PyVal
  | [], _ => Option.none
  | t :: _, 0 => t.defaultVal Option.none
  | _ :: rest, n + 1 => defaultAt rest n

/-- First-match lookup in an embedded Python dict. -/
def dictGet? (m : List (Option Int × PyVal)) (k : Option Int) : Option PyVal :=
  (m.find? (fun e => decide (e.1 = k))).map (·.2)

/-- CPython dict assignment `d[k] = v`: an existing key keeps its position
and is overwritten, a new key is appended. -/
def dictInsert (m : List (Option Int × PyVal)) (k : Option Int) (v : PyVal) :
    List (Option Int × PyVal) :=
  match m with
  | [] => [(k, v)]
  | e :: rest => if e.1 = k then (k, v) :: rest else e :: dictInsert rest k v

/-- `max(data)` over the keys of a container dict (such dicts hold only
integer keys: the constructor stores no `None` default for containers).
`Option.none` for an empty dict, where Python's `max` raises `ValueError`. -/
def maxKey? (m : List (Option Int × PyVal)) : Option Int :=
  (m.filterMap (·.1)).max?

/-- `range(size)` for a possibly negative Python int bound. -/
def rangeInt (mx : Int) : List Int :=
  (List.range mx.toNat).map Int.ofNat

/-- `isinstance(value, t)` for the classes `py_type` can return.  Python's
`bool` is a subclass of `int`. -/
def isinstanceOf (v : PyVal) (c : PyClass) : Bool :=
  match c, v with
  | .int, .int _ => true
  | .int, .bool _ => true
  | .float, .float _ => true
  | .str, .str _ => true
  | .uuid, .uuid _ => true
  | _, _ => false

/-- `Variable._keyrange` membership: `range(len(members))` for records,
`range(0x100000000)` for arrays, `range(size)` for static arrays, and the
singleton `{None}` otherwise.  (`None in range(n)` is `False` in Python, so
a missing key is simply not a member.) -/
def IFPSType.keyOk (t : IFPSType) (key : Option Int) : Bool :=
  match t with
  | .TRecord _ members =>
    match key with
    | some k => decide (0 ≤ k ∧ k < members.length)
    | Option.none => false
  | .TArray _ _ =>
    match key with
    | some k => decide (0 ≤ k ∧ k < 0x100000000)
    | Option.none => false
  | .TStaticArray _ _ size _ =>
    match key with
    | some k => decide (0 ≤ k ∧ k < size)
    | Option.none => false
  | _ => decide (key = Option.none)

/-- `Variable._int_size`: `{U08,U16,U32: +1, S08,...,S64: -1}.get(code, 0)
* code.width`. -/
def IFPSType.intSize (t : IFPSType) : Int :=
  (match t.code with
   | .U08 | .U16 | .U32 => (1 : Int)
   | .S08 | .S16 | .S32 | .S64 => -1
   | _ => 0) * t.code.width

/-- `Variable._int_bits = abs(_int_size) * 8`. -/
def IFPSType.intBits (t : IFPSType) : Nat :=
  t.intSize.natAbs * 8

/-- `Variable._int_good` membership: `range(2**bits)` for unsigned,
`range(-2**(bits-1), 2**(bits-1))` for signed, everything otherwise. -/
def IFPSType.inGood (t : IFPSType) (v : Int) : Bool :=
  if t.intSize > 0 then decide (0 ≤ v ∧ v < 2 ^ t.intBits)
  else if t.intSize < 0 then
    decide (-(2 ^ (t.intBits - 1)) ≤ v ∧ v < 2 ^ (t.intBits - 1))
  else true

/-- `self.type.size` for a `Set` cell (only `TSet` instances reach the
accesses that read it). -/
def IFPSType.setSize (t : IFPSType) : Nat :=
  match t with
  | .TSet _ size => size
  | _ => 0

/-- `Variable._wrap`.  The source reads
`if s := self._int_size and value not in self._int_good:` — the walrus
operator binds `s` to the WHOLE conjunction, so for integer-sized types `s`
is the boolean `value not in self._int_good`.  The subsequent
`if s < 0 and (value >> (self._int_bits - 1)):` can therefore never fire
(a bool is 0 or 1), and the signed sign-extension step is dead code: the
stored value is always the unsigned reduction.  `value &= mask` with the
all-ones mask `2 ** bits - 1` is reduction modulo `2 ** bits` (Python `&`
acts on two's complement integers), embedded as `Int.emod`.  A `True` or
`False` value lies in every good range and passes through unchanged; a
non-integer value would make Python raise `TypeError` at `value &= mask`. -/
def IFPSType.wrapVal (t : IFPSType) (v : PyVal) : Except Err PyVal :=
  if t.intSize = 0 then .ok v
  else
    match v with
    | .int n => if ¬ t.inGood n then .ok (.int (n.emod (2 ^ t.intBits))) else .ok (.int n)
    | .bool b => .ok (.bool b)
    | _ => .error .TypeErr

/-- `Variable._cast(key, value)`: key-range check, then the `isinstance`
type check with the two permitted single-character coercions.  `value`
absent (`Option.none`) is the key-check-only overload.  `Value` literal
unwrapping (`if isinstance(value, Value): value = value.value`) is
implicit: callers here pass payloads directly. -/
def IFPSType.castVal (t : IFPSType) (key : Option Int) (value : Option PyVal) :
    Except Err (Option PyVal) :=
  if ¬ t.keyOk key then .error .IndexOutOfRange
  else
    match value with
    | Option.none => .ok Option.none
    | some v =>
      match t.pyType key with
      | Option.none => .ok (some v)
      | some c =>
        if isinstanceOf v c then .ok (some v)
        else if c = PyClass.int then
          match v with
          | .str s => if s.length = 1 then .ok (some (.int (s.toList.headD 'A').toNat)) else .error .TypeMismatch
          | _ => .error .TypeMismatch
        else if c = PyClass.str then
          match v with
          | .int n => .ok (some (.str (String.mk [Char.ofNat n.toNat])))
          | .bool b => .ok (some (.str (String.mk [Char.ofNat (if b then 1 else 0)])))
          | _ => .error .TypeMismatch
        else .error .TypeMismatch

/-- `(n >> k) & 1 == 1` for a Python int: Euclidean division by `2 ^ k`
is Python's floor shift for positive powers, and `& 1` is the nonnegative
remainder mod 2. -/
def intTestBit (n : Int) (k : Nat) : Bool :=
  (n.ediv (2 ^ k)).emod 2 = 1

/-- `n | (1 << k)` on a Python int. -/
def intSetBit (n : Int) (k : Nat) : Int :=
  if intTestBit n k then n else n + 2 ^ k

/-- `n ^ (1 << k)` on a Python int. -/
def intFlipBit (n : Int) (k : Nat) : Int :=
  if intTestBit n k then n - 2 ^ k else n + 2 ^ k

/-- `class Variable`: a typed cell.  `data` is dynamically typed in the
source (`dict` for everything except a `Set` cell after an unkeyed
assignment, which replaces it by the integer bitmask), so it is a `PyVal`
here. -/
structure Variable where
  type : IFPSType
  spec : Variant
  data : PyVal

/-- `Variable.__init__`: start from an empty dict; non-container types with
a non-`None` default store it under the `None` key.  A `Set` cell is NOT a
container, has default `0`, and therefore starts as the dict `{None: 0}`. -/
def mkVariable (type : IFPSType) (spec : Variant) : Variable :=
  { type := type, spec := spec,
    data :=
      if ¬ type.container then
        match type.defaultVal Option.none with
        | some d => .pydict [(Option.none, d)]
        | Option.none => .pydict []
      else .pydict [] }

/-- The body of `Variable.set` without its unkeyed-container branch (that
branch re-enters `set` with integer keys, which lands here). -/
def Variable.setKeyed (var : Variable) (value : PyVal) (key : Option Int) :
    Except Err Variable :=
  if var.type.code = TC.Set then
    match key with
    | Option.none =>
      -- `if not isinstance(value, int): raise TypeError(...)`; the payload
      -- becomes the integer bitmask (a bool is an int in Python and is
      -- embedded by its integer value).
      match value with
      | .int n => .ok { var with data := .int n }
      | .bool b => .ok { var with data := .int (if b then 1 else 0) }
      | _ => .error .TypeErr
    | some k =>
      -- `if not isinstance(key, int): raise TypeError` cannot fail here.
      match value with
      | .bool b =>
        if ¬ decide (0 ≤ k ∧ k < var.type.setSize) then .error .IndexOutOfRange
        else if b then
          -- `self.data |= 1 << key`: a dict payload (the fresh-cell state)
          -- makes Python raise TypeError.
          match var.data with
          | .int n => .ok { var with data := .int (intSetBit n k.toNat) }
          | _ => .error .TypeErr
        else
          -- `elif self.data >> key & 1: self.data ^= 1 << key`
          match var.data with
          | .int n =>
            if intTestBit n k.toNat then .ok { var with data := .int (intFlipBit n k.toNat) }
            else .ok var
          | _ => .error .TypeErr
      | _ => .error .TypeErr
  else do
    -- `self.data[key] = value = self._wrap(self._cast(key, value))`
    let c ← var.type.castVal key (some value)
    let w ← var.type.wrapVal (c.getD .none)
    match var.data with
    | .pydict m => .ok { var with data := .pydict (dictInsert m key w) }
    | _ => .error .TypeErr

/-- The unkeyed-container loop of `Variable.set`:
`for k, element in enumerate(iter(value)): self.set(element, k)`. -/
def Variable.setAll (var : Variable) (xs : List PyVal) (k : Nat) :
    Except Err Variable :=
  match xs with
  | [] => .ok var
  | x :: rest => do
    let v ← var.setKeyed x (some k)
    v.setAll rest (k + 1)

/-- `Variable.set`. -/
def Variable.set (var : Variable) (value : PyVal) (key : Option Int) :
    Except Err Variable :=
  match key, var.type.container with
  | Option.none, true =>
    -- set the entire container from an iterable
    match value with
    | .pylist xs => var.setAll xs 0
    | .bytes bs => var.setAll (bs.map fun b => .int b) 0
    | .str s => var.setAll (s.toList.map fun ch => .str (String.mk [ch])) 0
    | _ => .error .TypeErr
  | _, _ => var.setKeyed value key

/-- `Variable.get`. -/
def Variable.get (var : Variable) (key : Option Int) : Except Err PyVal :=
  match key, var.type.container with
  | Option.none, true =>
    -- get the entire container:
    -- `size = max(data); return [data.get(k, type.default(k)) for k in range(size)]`
    -- `max` of an empty dict raises ValueError; `range(size)` EXCLUDES the
    -- maximum key `size` itself.
    match var.data with
    | .pydict m =>
      match maxKey? m with
      | Option.none => .error .ValueError
      | some mx =>
        .ok (.pylist ((rangeInt mx).map fun k =>
          (dictGet? m (some k)).getD ((var.type.defaultVal (some k)).getD .none)))
    | _ => .error .TypeErr
  | _, _ =>
    if var.type.code = TC.Set then
      match key with
      | Option.none => .ok var.data
      | some k =>
        if ¬ decide (0 ≤ k ∧ k < var.type.setSize) then .error .IndexOutOfRange
        else
          match var.data with
          | .int n => .ok (.bool (intTestBit n k.toNat))
          | _ => .error .TypeErr
    else do
      let _ ← var.type.castVal key Option.none
      match var.data with
      | .pydict m =>
        match dictGet? m key with
        | some v => .ok v
        | Option.none => .error .KeyError
      | _ => .error .TypeErr

/-- `class DeclSpecParam(NamedTuple)`. -/
structure DeclSpecParam where
  input : Bool
  type : Option IFPSType := Option.none

/-- `@dataclass class DeclSpec` (fields in source order). -/
structure DeclSpec where
  void : Bool
  parameters : List DeclSpecParam
  name : String := ""
  calling_convention : Option String := Option.none
  return_type : Option IFPSType := Option.none
  module : Option String := Option.none
  classname : Option String := Option.none
  delay_load : Bool := false
  vtable_index : Option Nat := Option.none
  load_with_altered_search_path : Bool := false
  is_property : Bool := false

/-- Python `data.split(sep)` for a one-byte separator: split at every
occurrence, keeping empty segments; always at least one segment. -/
def splitByte (sep : Nat) : List Nat → List (List Nat)
  | [] => [[]]
  | b :: rest =>
    let r := splitByte sep rest
    if b = sep then [] :: r
    else
      match r with
      | tok :: toks => (b :: tok) :: toks
      | [] => [[b]]

/-- Value of a nonempty all-ASCII-digit byte string. -/
def digitsVal? (ds : List Nat) : Option Nat :=
  match ds with
  | [] => Option.none
  | _ => ds.foldl
      (fun acc d => acc.bind fun a =>
        if 48 ≤ d ∧ d ≤ 57 then some (a * 10 + (d - 48)) else Option.none)
      (some 0)

/-- Python `int(bytes)` on a separator-free token: optional sign followed
by decimal digits, `Option.none` when the call would raise `ValueError`. -/
def pyInt? (tok : List Nat) : Option Int :=
  match tok with
  | 45 :: rest => (digitsVal? rest).map fun n => -(n : Int)
  | 43 :: rest => (digitsVal? rest).map fun n => (n : Int)
  | _ => (digitsVal? tok).map fun n => (n : Int)

/-- Python list subscript `xs[i]` with negative indexing from the end;
`IndexError` outside `[-len, len)`. -/
def pyIndex (xs : List IFPSType) (i : Int) : Except Err IFPSType :=
  let j := if i < 0 then i + xs.length else i
  if h : 0 ≤ j ∧ j.toNat < xs.length then .ok (xs.get ⟨j.toNat, h.2⟩)
  else .error Err.IndexError

/-- One parameter token of `DeclSpec.ParseE`:
`try: i = int(param[1:]) / except: tv = None / else: tv = ipfs.types[i]`,
then `DeclSpecParam(param[:1] == B'@', tv)`.  Note that the FIRST field of
`DeclSpecParam` is `input`, so a leading `'@'` (byte `0x40`) makes the
parameter an INPUT parameter; the `types[i]` lookup sits in the `else`
clause, outside the `try`, so its `IndexError` propagates. -/
def parseParamE (types : List IFPSType) (tok : List Nat) : Except Err DeclSpecParam :=
  match pyInt? (tok.drop 1) with
  | Option.none => .ok { input := tok.take 1 = [0x40], type := Option.none }
  | some i => (pyIndex types i).map fun t => { input := tok.take 1 = [0x40], type := some t }

/-- The parameter loop of `DeclSpec.ParseE`
(`for param in decl: ... parameters.append(...)`): parse each token in
order, aborting at the first raising token. -/
def parseParams (types : List IFPSType) : List (List Nat) → Except Err (List DeclSpecParam)
  | [] => .ok []
  | tok :: rest => do
    let p ← parseParamE types tok
    let ps ← parseParams types rest
    .ok (p :: ps)

/-- `DeclSpec.ParseE(data, ipfs)`: split on `0x20`; the first token is the
signed decimal return-type index (unparsable or negative means void, i.e.
no return type); each remaining token yields one parameter. -/
def ParseE (data : List Nat) (types : List IFPSType) : Except Err DeclSpec :=
  let decl := splitByte 0x20 data
  let first := decl.headD []
  let rest := decl.tail
  match pyInt? first with
  | Option.none => do
    let params ← parseParams types rest
    .ok { void := true, parameters := params, return_type := Option.none }
  | some rt =>
    if rt < 0 then do
      let params ← parseParams types rest
      .ok { void := true, parameters := params, return_type := Option.none }
    else do
      let t ← pyIndex types rt
      let params ← parseParams types rest
      .ok { void := false, parameters := params, return_type := some t }

/-- The six fields read from the 28-byte container header by
`IFPSFile.__init__`. -/
structure Header where
  version : Nat
  count_types : Nat
  count_functions : Nat
  count_variables : Nat
  entry : Nat
  import_size : Nat
deriving DecidableEq, Repr

/-- Byte `i` of the input (reads are guarded by the length check, so the
default is never observed in a successful parse). -/
def byteAt (data : List Nat) (i : Nat) : Nat := data.getD i 0

/-- `reader.u32()` at absolute position `i` (little endian). -/
def u32le (data : List Nat) (i : Nat) : Nat :=
  byteAt data i + 0x100 * byteAt data (i + 1) +
    0x10000 * byteAt data (i + 2) + 0x1000000 * byteAt data (i + 3)

/-- `IFPSFile.Magic = b'IFPS'`. -/
def ifpsMagic : List Nat := [0x49, 0x46, 0x50, 0x53]

/-- The header portion of `IFPSFile.__init__`: the length guard, the magic
comparison, the six little-endian `u32` reads, and the
`version not in range(MinVer, MaxVer + 1)` guard with `MinVer = 12`,
`MaxVer = 23`.  (The version check sits after all six reads in the source;
reordering is unobservable because the reads cannot fail once 28 bytes are
present.) -/
def parseHeader (data : List Nat) : Except Err Header :=
  if data.length < 28 then .error Err.TruncatedHeader
  else if data.take 4 ≠ ifpsMagic then .error Err.BadMagic
  else
    let version := u32le data 4
    let h : Header :=
      { version := version
        count_types := u32le data 8
        count_functions := u32le data 12
        count_variables := u32le data 16
        entry := u32le data 20
        import_size := u32le data 24 }
    if version < 12 ∨ 23 < version then .error Err.UnsupportedVersion
    else .ok h

/-- `class Value(NamedTuple)`: a literal (type reference, payload). -/
structure Value where
  type : IFPSType
  value : PyVal

/-- `class Attribute(NamedTuple)`. -/
structure Attribute where
  name : String
  fields : List Value

/-- `class OperandType(enum.IntEnum)`. -/
inductive OperandType where
  | Variant | Value | IndexedByInt | IndexedByVar
deriving DecidableEq, Repr

/-- The `index` member of an `Operand`: `Union[Variant, int]`. -/
inductive OperandIndex where
  | int (n : Nat)
  | variant (v : Variant)

/-- `class Operand(NamedTuple)`. -/
structure Operand where
  type : OperandType
  variant : Option Variant := Option.none
  value : Option Value := Option.none
  index : Option OperandIndex := Option.none

/-- `class AOp(enum.IntEnum)`: `BOr` is the source's name for 8. -/
inductive AOp where
  | Add | Sub | Mul | Div | Mod | Shl | Shr | And | BOr | Xor
deriving DecidableEq, Repr

/-- `class COp(enum.IntEnum)`. -/
inductive COp where
  | GE | LE | GT | LT | NE | EQ | IN | IS
deriving DecidableEq, Repr

/-- `Instruction.operator`: an `AOp` for `Calculate`, a `COp` for
`Compare`. -/
inductive OperatorTag where
  | arith (a : AOp)
  | cmp (c : COp)

/-- One element of `Instruction.operands`
(`List[Union[str, bool, int, float, Operand, IFPSType, Function, None]]`).
`int` holds branch-target offsets, raw `Call` function indices, type-table
indices and `PopEH` slot bytes; `func` is a resolved `Call` target,
referenced by its index into the unit's function list (the second pass of
`_load_functions` replaces the raw index by the function object; indices
realize that reference without an ownership cycle). -/
inductive InsnArg where
  | operand (op : Operand)
  | int (n : Nat)
  | bool (b : Bool)
  | none
  | func (k : Nat)
  | typeref (t : IFPSType)
  | variant (v : Variant)

/-- `@dataclass class Instruction` (display-only helpers elided). -/
structure Instruction where
  offset : Nat
  opcode : Op
  size : Nat := 0
  stack : Option Int := Option.none
  operands : List InsnArg := []
  operator : Option OperatorTag := Option.none
  jumptarget : Bool := false

/-- `Instruction.stack_delta`. -/
def Instruction.stack_delta (i : Instruction) : Int := i.opcode.stackDelta

/-- The second pass of `IFPSFile._parse_bytecode`: for every branch
instruction, mark the instruction at its (absolute) target offset as a
jump target; a target that is not an instruction start raises
`RuntimeError` (`BadJumpTarget`).  A branch instruction always carries its
target as `operands[0] = reader.tell() + rel` (a plain int). -/
def markJumpTargets (body : List Instruction) : Except Err (List Instruction) := do
  let targets ← body.foldlM
    (fun (acc : List Nat) i =>
      if i.opcode.branches then
        match i.operands.head? with
        | some (.int t) =>
          if body.any fun j => j.offset = t then pure (t :: acc)
          else throw Err.BadJumpTarget
        | _ => throw Err.BadJumpTarget
      else pure acc) []
  pure (body.map fun j =>
    if targets.contains j.offset then { j with jumptarget := true } else j)

/-- `@dataclass class BasicBlock`.  The source's `sources`/`targets` are
dicts from a block's start offset to the block object itself; since every
linked block lives in the function's block map, the embedding stores the
offset keys and recovers neighbours through the map. -/
structure BasicBlock where
  offset : Nat
  stack : Option Int := Option.none
  body : List Instruction := []
  sources : List Nat := []
  targets : List Nat := []

/-- First-match lookup in a `Nat`-keyed embedded dict. -/
def alGet? {α : Type} : List (Nat × α) → Nat → Option α
  | [], _ => Option.none
  | e :: rest, k => if e.1 = k then some e.2 else alGet? rest k

/-- CPython dict assignment: overwrite in place, or append a new key. -/
def alInsert {α : Type} (m : List (Nat × α)) (k : Nat) (v : α) : List (Nat × α) :=
  match m with
  | [] => [(k, v)]
  | e :: rest => if e.1 = k then (k, v) :: rest else e :: alInsert rest k v

/-- Update the value stored under `k` (no-op when `k` is absent). -/
def alUpdate {α : Type} : List (Nat × α) → Nat → (α → α) → List (Nat × α)
  | [], _, _ => []
  | e :: rest, k, f => (if e.1 = k then (e.1, f e.2) else e) :: alUpdate rest k f

/-- `del d[k]`. -/
def alDelete {α : Type} (m : List (Nat × α)) (k : Nat) : List (Nat × α) :=
  m.filter fun e => decide (e.1 ≠ k)

/-- Dict-key insertion for the offset-keyed `sources`/`targets` dicts:
an existing key keeps its position, a new key is appended. -/
def addKey (l : List Nat) (k : Nat) : List Nat :=
  if k ∈ l then l else l ++ [k]

/-- The `try/except KeyError` head of the walk in
`Function.get_basic_blocks`: switch to the block starting at this offset,
or — when the instruction is a jump target with no block yet — start a new
block there and link the current block to it as a fall-through predecessor.
The source performs this linking UNCONDITIONALLY, whatever the previous
instruction was. -/
def switchBlock (bbs : List (Nat × BasicBlock)) (cur : Nat) (insn : Instruction) :
    List (Nat × BasicBlock) × Nat :=
  match alGet? bbs insn.offset with
  | some _ => (bbs, insn.offset)
  | Option.none =>
    if insn.jumptarget then
      let bbs := alInsert bbs insn.offset { offset := insn.offset, sources := [cur] }
      let bbs := alUpdate bbs cur fun b => { b with targets := addKey b.targets insn.offset }
      (bbs, insn.offset)
    else (bbs, cur)

/-- `targets = [insn.operands[0]]` plus the fall-through offset
`insn.offset + insn.size` when the instruction is not an unconditional
jump.  (The source's additional `insn.opcode != Op.Ret` conjunct is
vacuous: `Ret` is not a branch, and this code runs only for branches.)
Only called on branch instructions, whose `operands[0]` is the absolute
target offset. -/
def Instruction.branchTargets (insn : Instruction) : List Nat :=
  match insn.operands.head? with
  | some (.int t) => if insn.opcode.jumps then [t] else [t, insn.offset + insn.size]
  | _ => []

/-- `if not (bt := bbs.get(t)): bt = bbs[t] = BasicBlock(t)` followed by
the two-way wiring `bb.targets[t] = bt; bt.sources[bb.offset] = bb`. -/
def linkTarget (bbs : List (Nat × BasicBlock)) (cur : Nat) (t : Nat) :
    List (Nat × BasicBlock) :=
  let bbs :=
    match alGet? bbs t with
    | some _ => bbs
    | Option.none => alInsert bbs t { offset := t }
  let bbs := alUpdate bbs cur fun b => { b with targets := addKey b.targets t }
  alUpdate bbs t fun b => { b with sources := addKey b.sources cur }

/-- One iteration of the block-construction walk: block switch, append the
instruction to the current block, then eagerly create and wire branch
successors. -/
def walkStep (st : List (Nat × BasicBlock) × Nat) (insn : Instruction) :
    List (Nat × BasicBlock) × Nat :=
  let (bbs, cur) := switchBlock st.1 st.2 insn
  let bbs := alUpdate bbs cur fun b => { b with body := b.body ++ [insn] }
  if insn.opcode.branches then
    (insn.branchTargets.foldl (fun m t => linkTarget m cur t) bbs, cur)
  else (bbs, cur)

/-- The block-construction walk seeded with block 0
(`bbs = {0: BasicBlock(0)}`). -/
def buildBlocks (body : List Instruction) : List (Nat × BasicBlock) :=
  (body.foldl walkStep ([(0, { offset := 0 })], 0)).1

/-- Deletion of one still-empty block and its detachment from its
predecessors (`del bbs[offset]`, then `source.targets.pop(offset, None)`
for each recorded source). -/
def pruneStep (bbs : List (Nat × BasicBlock)) (offset : Nat) : List (Nat × BasicBlock) :=
  match alGet? bbs offset with
  | some bb =>
    if bb.body.isEmpty then
      bb.sources.foldl
        (fun m s => alUpdate m s fun b => { b with targets := b.targets.filter (· ≠ offset) })
        (alDelete bbs offset)
    else bbs
  | Option.none => bbs

/-- `for offset, bb in list(bbs.items()): ...` — iterate over a snapshot of
the keys, deleting empty blocks. -/
def pruneEmpty (bbs : List (Nat × BasicBlock)) : List (Nat × BasicBlock) :=
  (bbs.map (·.1)).foldl pruneStep bbs

/-- State threaded through `trace_stack`: the block map (whose `stack`
fields it mutates), the `insn.stack` writes keyed by instruction offset
(bytecode offsets are strictly increasing, hence unique, in any parsed
body), and the `visited`/`errored` sets. -/
structure TraceState where
  bbs : List (Nat × BasicBlock)
  ann : List (Nat × Int) := []
  visited : List Nat := []
  errored : List Nat := []

/-- The annotation loop of `trace_stack`:
`for insn in body: insn.stack = stack; stack += insn.stack_delta`. -/
def annotateRun (ann : List (Nat × Int)) (body : List Instruction) (s : Int) :
    List (Nat × Int) × Int :=
  match body with
  | [] => (ann, s)
  | i :: rest => annotateRun (alInsert ann i.offset s) rest (s + i.stack_delta)

/-- `trace_stack(offset, stack)`: depth-first stack propagation over a
shared mutable state.  The source's recursion is emulated by an explicit
pending-call list processed in the same depth-first order (a call's child
calls — one per entry of `bb.targets`, in order — are handled before the
remaining pending calls).  A block reached twice with different depths is
poisoned (`stack = None`), recorded in `errored`, and poisons its
successors; a consistent revisit returns immediately.  One unit of fuel is
spent per call: at most `2·N` calls are productive (each adds its offset
to `visited` or `errored`, which only grow over the fixed key set of
`bbs`, `N = bbs.length`) and every other call was enqueued by a productive
one (at most `N` children each), so any fuel of at least
`2·N² + 2·N + 2` computes the source's result (callers pass exactly
that). -/
def traceStackLoop : Nat → TraceState → List (Nat × Option Int) → Except Err TraceState
  | 0, st, _ => .ok st
  | Nat.succ _, st, [] => .ok st
  | Nat.succ fuel, st, (offset, stack) :: calls =>
    if st.errored.contains offset then traceStackLoop fuel st calls
    else
      match alGet? st.bbs offset with
      | Option.none => .error Err.KeyError
      | some bb =>
        let stack := if bb.stack.isSome ∧ stack ≠ bb.stack then Option.none else stack
        match stack with
        | Option.none =>
          let st := { st with
            errored := addKey st.errored offset,
            bbs := alUpdate st.bbs offset fun b => { b with stack := Option.none } }
          traceStackLoop fuel st ((bb.targets.map fun t => (t, Option.none)) ++ calls)
        | some s =>
          if st.visited.contains offset then traceStackLoop fuel st calls
          else
            let st := { st with visited := addKey st.visited offset }
            let st := { st with bbs := alUpdate st.bbs offset fun b => { b with stack := some s } }
            let (ann, s') := annotateRun st.ann bb.body s
            traceStackLoop fuel { st with ann := ann }
              ((bb.targets.map fun t => (t, some s')) ++ calls)

/-- Replay the `insn.stack` writes of `trace_stack` onto an instruction
list (the source mutates the shared instruction objects in place). -/
def applyAnn (ann : List (Nat × Int)) (body : List Instruction) : List Instruction :=
  body.map fun i =>
    match alGet? ann i.offset with
    | some v => { i with stack := some v }
    | Option.none => i

/-- One operand of the validation loop: it inspects ONLY the top-level
`op.variant` member of each `Operand` (sub-indices of `IndexedByVar`
operands are never looked at), and flags a `Local` variant exactly when
`v.index <= stack` FAILS, i.e. when the index strictly exceeds the depth. -/
def localOverflowArg (s : Int) (a : InsnArg) : Bool :=
  match a with
  | .operand op =>
    match op.variant with
    | some v => decide (v.type = VariantType.Local ∧ s < v.index)
    | Option.none => false
  | _ => false

/-- Whether the validation loop raises at this instruction: instructions
with unknown depth are skipped. -/
def Instruction.localOverflow (insn : Instruction) : Bool :=
  match insn.stack with
  | Option.none => false
  | some s => insn.operands.any (localOverflowArg s)

/-- The validation loop at the end of `Function.get_basic_blocks`: raises
`StackUnderflow` at the first instruction holding an offending operand. -/
def validateLocals : List Instruction → Except Err Unit
  | [] => .ok ()
  | i :: rest =>
    if i.localOverflow then .error Err.StackUnderflow else validateLocals rest

/-- Result of the computed (non-cached) part of
`Function.get_basic_blocks`: the block map and the function body with the
`insn.stack` annotations applied (the source annotates the shared
instruction objects; block bodies receive the same annotations). -/
structure Analysis where
  blocks : List (Nat × BasicBlock)
  annBody : List Instruction

/-- The computed path of `Function.get_basic_blocks` on a non-`None` body:
walk, prune empty blocks, propagate stack depths from block 0 at depth 0,
then validate local-variant indices. -/
def analyzeBody (body : List Instruction) : Except Err Analysis := do
  let bbs := pruneEmpty (buildBlocks body)
  let st ← traceStackLoop (2 * bbs.length * bbs.length + 2 * bbs.length + 2)
    { bbs := bbs } [(0, some 0)]
  let annBody := applyAnn st.ann body
  match validateLocals annBody with
  | .ok _ =>
    .ok { blocks := st.bbs.map fun e => (e.1, { e.2 with body := applyAnn st.ann e.2.body })
          annBody := annBody }
  | .error e => .error e

/-- What the `_bbs` dataclass slot can hold: a genuine block map, or — via
the swapped positional arguments at the only `Function(...)` construction
site — the attribute list read by `_load_functions`. -/
inductive BBCache where
  | blocks (m : List (Nat × BasicBlock))
  | attrs (a : List Attribute)

/-- `@dataclass class Function`, fields in source order
`name, decl, body, attributes, _bbs`.  Python is dynamically typed and the
single construction site (`_load_functions`) passes
`Function(name, decl, body, exported, attributes)` POSITIONALLY, so the
`attributes` slot receives the boolean `exported` flag and `_bbs` receives
the attribute list; the field types below are the types of the values
actually stored. -/
structure Function where
  name : String
  decl : Option DeclSpec
  body : Option (List Instruction) := Option.none
  attributes : Bool := false
  bbs : Option BBCache := Option.none

/-- The construction `self.functions.append(Function(name, decl, body,
exported, attributes))` in `IFPSFile._load_functions`. -/
def loadedFunction (name : String) (decl : Option DeclSpec)
    (body : Option (List Instruction)) (exported : Bool)
    (attributes : Option (List Attribute)) : Function :=
  { name := name, decl := decl, body := body,
    attributes := exported, bbs := attributes.map BBCache.attrs }

/-- `Function.get_basic_blocks`: return the cached `_bbs` slot whenever it
is not `None` (for a function constructed with an attribute block this is
the ATTRIBUTE LIST, returned as-is), `{}` for a `None` body, and the full
analysis otherwise. -/
def Function.get_basic_blocks (f : Function) : Except Err BBCache :=
  match f.bbs with
  | some cached => .ok cached
  | Option.none =>
    match f.body with
    | Option.none => .ok (.blocks [])
    | some body => (analyzeBody body).map fun a => .blocks a.blocks

/-- Whether a `get_basic_blocks` result contains a basic block starting at
offset `o` that covers an instruction at offset `o`. -/
def BBCache.coversOffset (c : BBCache) (o : Nat) : Bool :=
  match c with
  | .blocks m =>
    match alGet? m o with
    | some b => b.body.any fun i => i.offset = o
    | Option.none => false
  | .attrs _ => false

/-! ### Concrete fixtures used by the claim theorems -/

/-- A plain `Variant`-shaped operand referencing a local slot. -/
def opLocalVar (i : Int) : InsnArg :=
  .operand { type := OperandType.Variant, variant := some ⟨i, VariantType.Local⟩ }

/-- A plain `Variant`-shaped operand referencing a global slot. -/
def opGlobalVar (i : Int) : InsnArg :=
  .operand { type := OperandType.Variant, variant := some ⟨i, VariantType.Global⟩ }

/-- A display spec for constructed variables. -/
def specG0 : Variant := ⟨0, VariantType.Global⟩

/-- A lone `Ret` at offset 0. -/
def retInsn : Instruction := { offset := 0, opcode := Op.Ret, size := 1 }

/-- An internal function as `_load_functions` builds it when the flags byte
has `HasAttrs` set and the attribute count is zero: body `[Ret]`, attribute
list `[]`. -/
def attrFunction : Function :=
  loadedFunction "F0" Option.none (some [retInsn]) false (some [])

/-- An `S08` cell and a `U08` cell. -/
def s08Var : Variable := mkVariable (.TPrimitive TC.S08) specG0

/-- See `s08Var`. -/
def u08Var : Variable := mkVariable (.TPrimitive TC.U08) specG0

/-- A `StaticArray(U08, 1)` cell. -/
def sarr1Var : Variable :=
  mkVariable (.TStaticArray TC.StaticArray (.TPrimitive TC.U08) 1 Option.none) specG0

/-- A `StaticArray(U08, 2)` cell. -/
def sarr2Var : Variable :=
  mkVariable (.TStaticArray TC.StaticArray (.TPrimitive TC.U08) 2 Option.none) specG0

/-- A freshly constructed `Set` cell of size 9. -/
def set9Var : Variable := mkVariable (.TSet TC.Set 9) specG0

/-- Body for the stack-validation boundary: an `Assign` whose first operand
references Local 0, at entry depth 0, then `Ret`. -/
def c3body : List Instruction :=
  [ { offset := 0, opcode := Op.Assign, size := 6,
      operands := [opLocalVar 0, opGlobalVar 0] },
    { offset := 6, opcode := Op.Ret, size := 1 } ]

/-- The analysis `analyzeBody c3body` computes: one block at 0 with entry
depth 0; both instructions annotated with depth 0. -/
def c3analysis : Analysis :=
  { blocks :=
      [(0, { offset := 0, stack := some 0,
             body :=
               [ { offset := 0, opcode := Op.Assign, size := 6, stack := some 0,
                   operands := [opLocalVar 0, opGlobalVar 0] },
                 { offset := 6, opcode := Op.Ret, size := 1, stack := some 0 } ] })]
    annBody :=
      [ { offset := 0, opcode := Op.Assign, size := 6, stack := some 0,
          operands := [opLocalVar 0, opGlobalVar 0] },
        { offset := 6, opcode := Op.Ret, size := 1, stack := some 0 } ] }

/-- The first annotated instruction of `c3analysis`. -/
def c3insn0 : Instruction :=
  { offset := 0, opcode := Op.Assign, size := 6, stack := some 0,
    operands := [opLocalVar 0, opGlobalVar 0] }

/-- Indices of every Local-variant reference in an operand — the top-level
variant AND the sub-index of an `IndexedByVar` operand, as quantified by
the claim over the validation pass. -/
def localRefIndices (a : InsnArg) : List Int :=
  match a with
  | .operand op =>
    (match op.variant with
     | some v => if v.type = VariantType.Local then [v.index] else []
     | Option.none => []) ++
    (match op.index with
     | some (.variant v) => if v.type = VariantType.Local then [v.index] else []
     | _ => [])
  | _ => []

/-- Claim C3 as stated: on every successfully analyzed body, every
Local-variant index occurring in any operand or sub-index of an
instruction with known depth `s` lies in `[0, s)`. -/
def stackClaimC3 : Prop :=
  ∀ (body : List Instruction) (a : Analysis), analyzeBody body = .ok a →
    ∀ insn ∈ a.annBody, ∀ s : Int, insn.stack = some s →
      ∀ i ∈ insn.operands.flatMap localRefIndices, 0 ≤ i ∧ i < s

/-- The E-form blob `b"0 @1"`. -/
def c5data : List Nat := [0x30, 0x20, 0x40, 0x31]

/-- A two-entry type table. -/
def c5types : List IFPSType := [.TPrimitive TC.U08, .TPrimitive TC.U16]

/-- What `ParseE c5data c5types` returns. -/
def c5decl : DeclSpec :=
  { void := false,
    parameters := [{ input := true, type := some (.TPrimitive TC.U16) }],
    return_type := some (.TPrimitive TC.U08) }

/-- Claim C5 as stated, as the per-token flag correspondence: a parameter
is an output parameter (`input = false`) exactly when its token starts
with `'@'` (byte `0x40`). -/
def eFormClaim : Prop :=
  ∀ (data : List Nat) (types : List IFPSType) (d : DeclSpec),
    ParseE data types = .ok d →
    ∀ (k : Nat) (hk : k < ((splitByte 0x20 data).tail).length)
      (hp : k < d.parameters.length),
      ((d.parameters.get ⟨k, hp⟩).input = false
        ↔ ((splitByte 0x20 data).tail.get ⟨k, hk⟩).take 1 = [0x40])

/-- The E-form blob `b"-1 2 @0"` (void, two parameters). -/
def c5wdata : List Nat := [0x2D, 0x31, 0x20, 0x32, 0x20, 0x40, 0x30]

/-- A three-entry type table for `c5wdata`. -/
def c5wtypes : List IFPSType :=
  [.TPrimitive TC.U08, .TPrimitive TC.U16, .TPrimitive TC.S32]

/-- What `ParseE c5wdata c5wtypes` returns.  The single-character token
`b"2"` yields NO type: `param[1:]` is empty (the source always strips the
first character) and `int(b'')` raises, caught as `tv = None`. -/
def c5wdecl : DeclSpec :=
  { void := true,
    parameters :=
      [{ input := false, type := Option.none },
       { input := true, type := some (.TPrimitive TC.U08) }],
    return_type := Option.none }

/-- The unconditional `Jump` at offset 0 of the fall-through fixture. -/
def c6i0 : Instruction := { offset := 0, opcode := Op.Jump, size := 5, operands := [.int 10] }

/-- The jump-target `Nop` at offset 5 that follows the unconditional jump
(marked as a jump target by the second parser pass). -/
def c6i1 : Instruction := { offset := 5, opcode := Op.Nop, size := 5, jumptarget := true }

/-- The walk state reached after processing `c6i0`: block 0 holds the jump
and targets block 10, which was created eagerly. -/
def c6bbs1 : List (Nat × BasicBlock) :=
  [(0, { offset := 0, body := [c6i0], targets := [10] }),
   (10, { offset := 10, sources := [0] })]

/-- Claim C6 as stated, hard-branch direction: when the walk starts a new
block at a jump target and the previous instruction (the last one appended
to the current block) was an unconditional jump or `Ret`, the previous
block is NOT linked as a fall-through predecessor. -/
def fallthroughClaim : Prop :=
  ∀ (bbs : List (Nat × BasicBlock)) (cur : Nat) (insn : Instruction) (b : BasicBlock),
    alGet? bbs insn.offset = Option.none → insn.jumptarget = true →
    alGet? bbs cur = some b →
    (∀ last, b.body.getLast? = some last → (last.opcode.jumps = true ∨ last.opcode = Op.Ret)) →
    ∀ nb, alGet? (walkStep (bbs, cur) insn).1 insn.offset = some nb →
      cur ∉ nb.sources

/-- A fresh jump-target instruction for the fall-through witness. -/
def wJtInsn : Instruction := { offset := 3, opcode := Op.Nop, size := 2, jumptarget := true }

/-- A valid 28-byte header: magic, version 12, all counts zero. -/
def wHeader : List Nat :=
  [0x49, 0x46, 0x50, 0x53, 12, 0, 0, 0,
   0, 0, 0, 0, 0, 0, 0, 0, 0, 0, 0, 0, 0, 0, 0, 0, 0, 0, 0, 0]

/-- The property the validation pass actually enforces (amended C3): for
every instruction with a KNOWN entry depth, the index of every Local
variant sitting in the top-level `variant` member of an `Operand` is at
most the depth (sub-indices of `IndexedByVar` operands are not inspected,
and an index EQUAL to the depth is accepted). -/
def noLocalOverflow (body : List Instruction) : Prop :=
  ∀ insn ∈ body, ∀ s : Int, insn.stack = some s →
    ∀ a ∈ insn.operands, ∀ op : Operand, a = InsnArg.operand op →
      ∀ v : Variant, op.variant = some v → v.type = VariantType.Local →
        v.index ≤ s

/-! ### Helper lemmas -/

theorem alGet?_insert_self {α : Type} (m : List (Nat × α)) (k : Nat) (v : α) :
    alGet? (alInsert m k v) k = some v := by
  induction m with
  | nil => simp [alInsert, alGet?]
  | cons e rest ih =>
    by_cases h : e.1 = k
    · simp [alInsert, h, alGet?]
    · simp [alInsert, h, alGet?, ih]

theorem alGet?_insert_ne {α : Type} (m : List (Nat × α)) (k k' : Nat) (v : α)
    (h : k' ≠ k) : alGet? (alInsert m k v) k' = alGet? m k' := by
  induction m with
  | nil => simp [alInsert, alGet?, Ne.symm h]
  | cons e rest ih =>
    by_cases he : e.1 = k
    · subst he
      simp [alInsert, alGet?, Ne.symm h]
    · simp only [alInsert, if_neg he, alGet?]
      by_cases he' : e.1 = k'
      · simp [he']
      · simp [he', ih]

theorem alGet?_update_self {α : Type} (m : List (Nat × α)) (k : Nat) (f : α → α) :
    alGet? (alUpdate m k f) k = (alGet? m k).map f := by
  induction m with
  | nil => simp [alUpdate, alGet?]
  | cons e rest ih =>
    by_cases h : e.1 = k
    · simp [alUpdate, h, alGet?]
    · simp [alUpdate, h, alGet?, ih]

theorem alGet?_update_ne {α : Type} (m : List (Nat × α)) (k k' : Nat) (f : α → α)
    (h : k' ≠ k) : alGet? (alUpdate m k f) k' = alGet? m k' := by
  induction m with
  | nil => simp [alUpdate, alGet?]
  | cons e rest ih =>
    by_cases he : e.1 = k
    · subst he
      simp only [alUpdate, if_pos rfl, alGet?]
      simp [Ne.symm h, ih]
    · simp only [alUpdate, if_neg he, alGet?]
      by_cases he' : e.1 = k'
      · simp [he']
      · simp [he', ih]

theorem mem_addKey_self (l : List Nat) (k : Nat) : k ∈ addKey l k := by
  by_cases h : k ∈ l <;> simp [addKey, h]

theorem mem_addKey_of_mem (l : List Nat) (k x : Nat) (h : x ∈ l) : x ∈ addKey l k := by
  by_cases hc : k ∈ l <;> simp [addKey, hc, h]

/-- `linkTarget` never removes a map entry and only extends its
`sources`/`targets` key sets. -/
theorem alGet?_update2 {α : Type} (m : List (Nat × α)) (k1 k2 o : Nat)
    (f1 f2 : α → α) (b : α) (h : alGet? m o = some b) :
    alGet? (alUpdate (alUpdate m k1 f1) k2 f2) o =
      some ((if o = k2 then f2 else id) ((if o = k1 then f1 else id) b)) := by
  by_cases h1 : o = k1
  · subst h1
    by_cases h2 : o = k2
    · subst h2
      rw [alGet?_update_self, alGet?_update_self, h]
      simp
    · rw [alGet?_update_ne _ _ _ _ h2, alGet?_update_self, h]
      simp [h2]
  · by_cases h2 : o = k2
    · subst h2
      rw [alGet?_update_self, alGet?_update_ne _ _ _ _ h1, h]
      simp [h1]
    · rw [alGet?_update_ne _ _ _ _ h2, alGet?_update_ne _ _ _ _ h1, h]
      simp [h1, h2]

theorem linkTarget_preserves (m : List (Nat × BasicBlock)) (cur t o : Nat)
    (b : BasicBlock) (h : alGet? m o = some b) :
    ∃ b', alGet? (linkTarget m cur t) o = some b' ∧
      (∀ x ∈ b.sources, x ∈ b'.sources) ∧ (∀ x ∈ b.targets, x ∈ b'.targets) := by
  unfold linkTarget
  cases hg : alGet? m t with
  | some bt =>
    simp only [hg]
    rw [alGet?_update2 _ _ _ _ _ _ _ h]
    refine ⟨_, rfl, ?_, ?_⟩ <;>
      · intro x hx
        split <;> split <;> simp_all [mem_addKey_of_mem]
  | none =>
    simp only [hg]
    have ho : o ≠ t := fun he => by rw [he, hg] at h; cases h
    have hins : alGet? (alInsert m t { offset := t }) o = some b := by
      rw [alGet?_insert_ne _ _ _ _ ho, h]
    rw [alGet?_update2 _ _ _ _ _ _ _ hins]
    refine ⟨_, rfl, ?_, ?_⟩ <;>
      · intro x hx
        split <;> split <;> simp_all [mem_addKey_of_mem]

/-- Folding `linkTarget` over any target list preserves entries and their
recorded edges. -/
theorem foldLink_preserves (ts : List Nat) (m : List (Nat × BasicBlock)) (cur o : Nat)
    (b : BasicBlock) (h : alGet? m o = some b) :
    ∃ b', alGet? (ts.foldl (fun acc t => linkTarget acc cur t) m) o = some b' ∧
      (∀ x ∈ b.sources, x ∈ b'.sources) ∧ (∀ x ∈ b.targets, x ∈ b'.targets) := by
  induction ts generalizing m b with
  | nil => exact ⟨b, h, fun _ hx => hx, fun _ hx => hx⟩
  | cons t rest ih =>
    obtain ⟨b1, h1, hs1, ht1⟩ := linkTarget_preserves m cur t o b h
    obtain ⟨b2, h2, hs2, ht2⟩ := ih _ _ h1
    exact ⟨b2, h2, fun x hx => hs2 x (hs1 x hx), fun x hx => ht2 x (ht1 x hx)⟩

/-- Core of the amended C6: at a jump-target instruction with no existing
block, the walk step creates a block at that offset, appends the
instruction to it, links the previous block to it as a fall-through
predecessor UNCONDITIONALLY — with no hypothesis whatsoever about the
previous instruction — and makes it current. -/
theorem walkStep_new_jumptarget (bbs : List (Nat × BasicBlock)) (cur : Nat)
    (insn : Instruction) (h0 : alGet? bbs insn.offset = Option.none)
    (h1 : insn.jumptarget = true) (h2 : (alGet? bbs cur).isSome = true) :
    (walkStep (bbs, cur) insn).2 = insn.offset ∧
    (∃ nb, alGet? (walkStep (bbs, cur) insn).1 insn.offset = some nb ∧
      cur ∈ nb.sources) ∧
    (∃ pb, alGet? (walkStep (bbs, cur) insn).1 cur = some pb ∧
      insn.offset ∈ pb.targets) := by
  obtain ⟨b0, hb0⟩ := Option.isSome_iff_exists.mp h2
  have hne : cur ≠ insn.offset := by
    intro he
    rw [he, h0] at hb0
    cases hb0
  simp only [walkStep, switchBlock, h0, h1, if_true]
  have hb1off : alGet? (alUpdate (alInsert bbs insn.offset
      { offset := insn.offset, sources := [cur] }) cur
        (fun b => { b with targets := addKey b.targets insn.offset })) insn.offset
      = some { offset := insn.offset, sources := [cur] } := by
    rw [alGet?_update_ne _ _ _ _ (Ne.symm hne), alGet?_insert_self]
  have hb1cur : alGet? (alUpdate (alInsert bbs insn.offset
      { offset := insn.offset, sources := [cur] }) cur
        (fun b => { b with targets := addKey b.targets insn.offset })) cur
      = some { b0 with targets := addKey b0.targets insn.offset } := by
    rw [alGet?_update_self, alGet?_insert_ne _ _ _ _ hne, hb0]
    rfl
  have hb2off : alGet? (alUpdate (alUpdate (alInsert bbs insn.offset
      { offset := insn.offset, sources := [cur] }) cur
        (fun b => { b with targets := addKey b.targets insn.offset })) insn.offset
          (fun b => { b with body := b.body ++ [insn] })) insn.offset
      = some { offset := insn.offset, sources := [cur], body := [insn] } := by
    rw [alGet?_update_self, hb1off]
    rfl
  have hb2cur : alGet? (alUpdate (alUpdate (alInsert bbs insn.offset
      { offset := insn.offset, sources := [cur] }) cur
        (fun b => { b with targets := addKey b.targets insn.offset })) insn.offset
          (fun b => { b with body := b.body ++ [insn] })) cur
      = some { b0 with targets := addKey b0.targets insn.offset } := by
    rw [alGet?_update_ne _ _ _ _ hne, hb1cur]
  cases hbr : insn.opcode.branches with
  | false =>
    simp only [hbr, Bool.false_eq_true, if_false]
    refine ⟨trivial, ⟨_, hb2off, ?_⟩, ⟨_, hb2cur, ?_⟩⟩
    · simp
    · exact mem_addKey_self _ _
  | true =>
    simp only [hbr, if_true]
    obtain ⟨nb, hnb, hnbs, _⟩ :=
      foldLink_preserves insn.branchTargets _ insn.offset insn.offset _ hb2off
    obtain ⟨pb, hpb, _, hpbt⟩ :=
      foldLink_preserves insn.branchTargets _ insn.offset cur _ hb2cur
    refine ⟨trivial, ⟨nb, hnb, hnbs cur ?_⟩, ⟨pb, hpb, hpbt insn.offset ?_⟩⟩
    · simp
    · exact mem_addKey_self _ _

theorem exceptBind_ok {α β : Type} {x : Except Err α} {f : α → Except Err β} {b : β}
    (h : (x >>= f) = .ok b) : ∃ a, x = .ok a ∧ f a = .ok b := by
  cases x with
  | error e => simp [Bind.bind, Except.bind] at h
  | ok a => exact ⟨a, rfl, by simpa [Bind.bind, Except.bind] using h⟩

theorem parseParams_spec (types : List IFPSType) (toks : List (List Nat)) :
    ∀ ps : List DeclSpecParam, parseParams types toks = .ok ps →
      ps.length = toks.length ∧
      ∀ (k : Nat) (hk : k < toks.length) (hp : k < ps.length),
        parseParamE types (toks.get ⟨k, hk⟩) = .ok (ps.get ⟨k, hp⟩) := by
  induction toks with
  | nil =>
    intro ps h
    simp only [parseParams, Except.ok.injEq] at h
    subst h
    exact ⟨rfl, fun k hk _ => absurd hk (by simp)⟩
  | cons tok rest ih =>
    intro ps h
    obtain ⟨p, hp1, h2⟩ := exceptBind_ok h
    obtain ⟨ps', hps', h3⟩ := exceptBind_ok h2
    have hps : ps = p :: ps' := by
      simpa [eq_comm] using h3
    subst hps
    obtain ⟨hlen, hidx⟩ := ih ps' hps'
    refine ⟨by simp [hlen], fun k hk hy => ?_⟩
    cases k with
    | zero => simpa using hp1
    | succ n =>
      have hk' : n < rest.length := by simpa using hk
      have hy' : n < ps'.length := by simpa using hy
      simpa using hidx n hk' hy'

theorem localOverflow_false_iff (insn : Instruction) :
    insn.localOverflow = false ↔
      (∀ s : Int, insn.stack = some s →
        ∀ a ∈ insn.operands, ∀ op : Operand, a = InsnArg.operand op →
          ∀ v : Variant, op.variant = some v → v.type = VariantType.Local →
            v.index ≤ s) := by
  cases hs : insn.stack with
  | none =>
    simp only [Instruction.localOverflow, hs]
    constructor
    · intro _ s hss
      cases hss
    · intro _
      trivial
  | some s =>
    simp only [Instruction.localOverflow, hs, List.any_eq_false]
    constructor
    · intro h s' hss a ha op hop v hv hloc
      cases hss
      have := h a ha
      subst hop
      simp only [localOverflowArg, hv, decide_eq_true_eq] at this
      by_contra hlt
      exact this ⟨hloc, by omega⟩
    · intro h a ha
      cases a with
      | operand op =>
        cases hv : op.variant with
        | none => simp [localOverflowArg, hv]
        | some v =>
          simp only [localOverflowArg, hv, decide_eq_true_eq, not_and, not_lt]
          intro hloc
          exact h s rfl _ ha op rfl v hv hloc
      | int n => simp [localOverflowArg]
      | bool b => simp [localOverflowArg]
      | none => simp [localOverflowArg]
      | func k => simp [localOverflowArg]
      | typeref t => simp [localOverflowArg]
      | variant v => simp [localOverflowArg]

theorem validateLocals_ok_iff_all (body : List Instruction) :
    validateLocals body = .ok () ↔ ∀ insn ∈ body, insn.localOverflow = false := by
  induction body with
  | nil => simp [validateLocals]
  | cons i rest ih =>
    by_cases h : i.localOverflow
    · simp [validateLocals, h]
    · simp [validateLocals, h, ih]

theorem validateLocals_total (body : List Instruction) :
    validateLocals body = .ok () ∨ validateLocals body = .error Err.StackUnderflow := by
  induction body with
  | nil => exact Or.inl rfl
  | cons i rest ih =>
    by_cases h : i.localOverflow
    · exact Or.inr (by simp [validateLocals, h])
    · simpa [validateLocals, h] using ih

theorem parseParamE_spec (types : List IFPSType) (tok : List Nat) (p : DeclSpecParam)
    (h : parseParamE types tok = .ok p) :
    (p.input = true ↔ tok.take 1 = [0x40]) ∧
    (p.type = match pyInt? (tok.drop 1) with
      | Option.none => Option.none
      | some i => (pyIndex types i).toOption) := by
  unfold parseParamE at h
  cases hp : pyInt? (tok.drop 1) with
  | none =>
    simp only [hp, Except.ok.injEq] at h
    subst h
    simp only [hp]
    exact ⟨decide_eq_true_iff, trivial⟩
  | some i =>
    simp only [hp] at h
    cases hx : pyIndex types i with
    | error e =>
      rw [hx] at h
      simp [Except.map] at h
    | ok t =>
      rw [hx] at h
      simp only [Except.map, Except.ok.injEq] at h
      subst h
      simp only [hp, hx]
      exact ⟨decide_eq_true_iff, rfl⟩

theorem parseE_params_eq (data : List Nat) (types : List IFPSType) (d : DeclSpec)
    (h : ParseE data types = .ok d) :
    parseParams types ((splitByte 0x20 data).tail) = .ok d.parameters := by
  unfold ParseE at h
  cases hf : pyInt? ((splitByte 0x20 data).headD []) with
  | none =>
    simp only [hf] at h
    obtain ⟨params, hm, hok⟩ := exceptBind_ok h
    cases hok
    exact hm
  | some rt =>
    simp only [hf] at h
    by_cases hneg : rt < 0
    · rw [if_pos hneg] at h
      obtain ⟨params, hm, hok⟩ := exceptBind_ok h
      cases hok
      exact hm
    · rw [if_neg hneg] at h
      obtain ⟨t, _, h2⟩ := exceptBind_ok h
      obtain ⟨params, hm, hok⟩ := exceptBind_ok h2
      cases hok
      exact hm

/-! ### Claim theorems -/

/-- Claim C1: the claim asserts that every function with a non-empty body
has basic block 0 covering the instruction at offset 0, including
functions carrying an attribute block.  The code violates this: the
`Function` dataclass declares fields `(name, decl, body, attributes,
_bbs)` but `_load_functions` constructs `Function(name, decl, body,
exported, attributes)`, so `exported` lands in `attributes` and the
attribute list lands in `_bbs`.  For any function with `HasAttrs` the
attribute list (here `[]`) is then returned verbatim by
`get_basic_blocks` as the "cached" block map, which contains no basic
block at offset 0 even though the body `[Ret]` is non-empty. -/
theorem c1_attr_function_lacks_block_zero :
    attrFunction.body = some [retInsn] ∧
    attrFunction.get_basic_blocks = .ok (.attrs []) ∧
    (BBCache.attrs []).coversOffset 0 = false :=
  ⟨rfl, rfl, rfl⟩

/-- Claim C2: fixed-width integer wrap evaluated at the claim's three
boundary inputs.  `U08 := 256` stores `0` and `S08 := -129` stores `127`
as claimed, but `S08 := 128` stores `128` — NOT `-128` — because the
walrus in `if s := self._int_size and value not in self._int_good:` binds
`s` to the boolean conjunct, so the signed fix-up `if s < 0: ...` is dead
code and `128` lies outside the signed 8-bit range `[-128, 128)`. -/
theorem c2_integer_wrap_eval :
    (u08Var.set (.int 256) Option.none).map Variable.data
        = .ok (.pydict [(Option.none, .int 0)]) ∧
    (s08Var.set (.int (-129)) Option.none).map Variable.data
        = .ok (.pydict [(Option.none, .int 127)]) ∧
    (s08Var.set (.int 128) Option.none).map Variable.data
        = .ok (.pydict [(Option.none, .int 128)]) ∧
    ¬ (-(2 ^ 7) ≤ (128 : Int) ∧ (128 : Int) < 2 ^ 7) :=
  ⟨rfl, rfl, rfl, by decide⟩

/-- Claim C3, counterexample: the claim says validation fails whenever a
Local index is `≥` the known depth.  On `c3body` the `Assign` at depth 0
references Local 0 (so `0 ≥ 0` holds and the claim demands
`StackUnderflow`), yet the analysis succeeds: the source's guard is
`if v.index <= stack: continue`, which only rejects indices STRICTLY
greater than the depth. -/
theorem c3_stack_claim_counterexample : ¬ stackClaimC3 := fun h =>
  absurd
    (h c3body c3analysis rfl c3insn0 (by simp [c3analysis, c3insn0]) 0 rfl 0 (by decide))
    (by decide)

/-- Claim C3 (amended): stack validation fails with `StackUnderflow`
exactly when some instruction with a KNOWN entry depth `s` has an operand
whose top-level variant is a Local with index STRICTLY GREATER than `s`
(sub-indices inside `IndexedByVar` operands are never inspected);
equivalently, on success every such index lies in `[0, s]`. -/
theorem c3_validate_locals_spec (body : List Instruction) :
    (validateLocals body = .ok () ↔ noLocalOverflow body) ∧
    (validateLocals body = .error Err.StackUnderflow ↔ ¬ noLocalOverflow body) := by
  have hok : validateLocals body = .ok () ↔ noLocalOverflow body := by
    rw [validateLocals_ok_iff_all]
    unfold noLocalOverflow
    constructor
    · intro h insn hmem s hs a ha op hop v hv hloc
      exact (localOverflow_false_iff insn).mp (h insn hmem) s hs a ha op hop v hv hloc
    · intro h insn hmem
      exact (localOverflow_false_iff insn).mpr fun s hs a ha op hop v hv hloc =>
        h insn hmem s hs a ha op hop v hv hloc
  refine ⟨hok, ?_⟩
  cases validateLocals_total body with
  | inl h =>
    constructor
    · intro he
      rw [h] at he
      cases he
    · intro hn
      exact absurd (hok.mp h) hn
  | inr h =>
    constructor
    · intro _ hP
      have hq := hok.mpr hP
      rw [hq] at h
      cases h
    · intro _
      exact h

/-- Witness for the amended C3 at a concrete body. -/
theorem c3_validate_locals_spec_witness : validateLocals [retInsn] = .ok () :=
  (c3_validate_locals_spec [retInsn]).1.mpr
    (fun insn hmem s hs _ _ _ _ _ _ _ => by
      simp only [List.mem_singleton] at hmem
      subst hmem
      exact absurd hs (by simp [retInsn]))

/-- Claim C4: the claim says `get()` after setting keys `0..n-1` returns
all `n` elements.  The source computes `size = max(data)` (the LARGEST
key) and iterates `range(size)`, which excludes `size` itself: the
element at the maximum key is always dropped.  A fully written
`StaticArray(U08, 1)` reads back `[]`, and a fully written
`StaticArray(U08, 2)` reads back only its first element. -/
theorem c4_container_get_eval :
    ((sarr1Var.set (.int 7) (some 0)).bind fun v => v.get Option.none)
        = .ok (.pylist []) ∧
    (((sarr2Var.set (.int 7) (some 0)).bind fun v =>
        v.set (.int 9) (some 1)).bind fun v => v.get Option.none)
        = .ok (.pylist [.int 7]) :=
  ⟨rfl, rfl⟩

/-- Claim C5, counterexample: the claim says a leading `'@'` yields an
OUTPUT parameter.  Parsing `b"0 @1"` produces a parameter with
`input = True` (the source passes `param[:1] == B'@'` as the `input`
field of `DeclSpecParam`), i.e. an INPUT parameter. -/
theorem c5_eform_claim_counterexample : ¬ eFormClaim := fun h =>
  absurd ((h c5data c5types c5decl rfl 0 (by decide) (by decide)).mpr (by decide))
    (by decide)

/-- Claim C5 (amended): in an E-form declaration every parameter token
yields one parameter whose `input` flag is TRUE exactly when the token's
first character is `'@'` (so `'@'` marks an input parameter and any other
first character an output parameter), and whose type is
`types[int(token[1:])]` — the decimal type index in the remainder after
the first character — when that remainder parses, and `None` otherwise. -/
theorem c5_parseE_params (data : List Nat) (types : List IFPSType) (d : DeclSpec)
    (h : ParseE data types = .ok d) :
    d.parameters.length = ((splitByte 0x20 data).tail).length ∧
    ∀ (k : Nat) (hk : k < ((splitByte 0x20 data).tail).length)
      (hp : k < d.parameters.length),
      ((d.parameters.get ⟨k, hp⟩).input = true
        ↔ ((splitByte 0x20 data).tail.get ⟨k, hk⟩).take 1 = [0x40]) ∧
      ((d.parameters.get ⟨k, hp⟩).type =
        match pyInt? (((splitByte 0x20 data).tail.get ⟨k, hk⟩).drop 1) with
        | Option.none => Option.none
        | some i => (pyIndex types i).toOption) := by
  obtain ⟨hlen, hidx⟩ := parseParams_spec types _ _ (parseE_params_eq data types d h)
  exact ⟨hlen, fun k hk hp => parseParamE_spec types _ _ (hidx k hk hp)⟩

/-- Witness for the amended C5 on the blob `b"-1 2 @0"`. -/
theorem c5_parseE_params_witness :
    c5wdecl.parameters.length = ((splitByte 0x20 c5wdata).tail).length :=
  (c5_parseE_params c5wdata c5wtypes c5wdecl rfl).1

/-- Claim C6, counterexample: the claim links the new jump-target block to
the previous block only if the previous instruction did not hard-branch.
In the walk state reached after an unconditional `Jump` (`c6bbs1`,
current block 0 whose last instruction is `c6i0 = Jump`), stepping over
the jump-target `c6i1` still records block 0 as a fall-through
predecessor of the new block at 5. -/
theorem c6_fallthrough_claim_counterexample : ¬ fallthroughClaim := by
  intro h
  have hnb := h c6bbs1 0 c6i1 { offset := 0, body := [c6i0], targets := [10] } rfl rfl rfl
    (fun last hl => by
      have hlast : last = c6i0 := by simpa using hl.symm
      subst hlast
      exact Or.inl rfl)
    { offset := 5, body := [c6i1], sources := [0] } rfl
  exact hnb (by decide)

/-- Claim C6 (amended): when the walk reaches an instruction whose offset
is a jump target but for which no block exists yet, a new block is started
there and made current, and the previous block is linked to it as a
fall-through predecessor UNCONDITIONALLY — also when the previous
instruction was an unconditional jump or `Ret`. -/
theorem c6_walk_new_jumptarget_links (bbs : List (Nat × BasicBlock)) (cur : Nat)
    (insn : Instruction) (h0 : alGet? bbs insn.offset = Option.none)
    (h1 : insn.jumptarget = true) (h2 : (alGet? bbs cur).isSome = true) :
    (walkStep (bbs, cur) insn).2 = insn.offset ∧
    (∃ nb, alGet? (walkStep (bbs, cur) insn).1 insn.offset = some nb ∧
      cur ∈ nb.sources) ∧
    (∃ pb, alGet? (walkStep (bbs, cur) insn).1 cur = some pb ∧
      insn.offset ∈ pb.targets) :=
  walkStep_new_jumptarget bbs cur insn h0 h1 h2

/-- Witness for the amended C6 on a fresh one-block state. -/
theorem c6_walk_new_jumptarget_links_witness :
    (walkStep ([(0, { offset := 0 })], 0) wJtInsn).2 = wJtInsn.offset ∧
    (∃ nb, alGet? (walkStep ([(0, { offset := 0 })], 0) wJtInsn).1 wJtInsn.offset
        = some nb ∧ 0 ∈ nb.sources) ∧
    (∃ pb, alGet? (walkStep ([(0, { offset := 0 })], 0) wJtInsn).1 0 = some pb ∧
      wJtInsn.offset ∈ pb.targets) :=
  c6_walk_new_jumptarget_links [(0, { offset := 0 })] 0 wJtInsn rfl rfl rfl

/-- Claim C7: the three cases of the 32-bit variant-word decoder: below
`0x40000000` a Global with the word itself as index; at or above
`0x60000000` (where `d = v - 0x60000000 ≥ 0`) a Local with index `d`;
and when `d` is negative (the remaining words, all `≥ 0x40000000`) an
Argument whose index is `-d` for a void containing function and the
bitwise not of `d` otherwise. -/
theorem c7_read_variant_cases (void : Bool) (v : Nat) :
    (v < 0x40000000 → read_variant void v = ⟨(v : Int), VariantType.Global⟩) ∧
    (0x60000000 ≤ v →
      read_variant void v = ⟨(v : Int) - 0x60000000, VariantType.Local⟩) ∧
    (¬ v < 0x40000000 → (v : Int) - 0x60000000 < 0 →
      read_variant void v =
        ⟨if void then -((v : Int) - 0x60000000) else pyNot ((v : Int) - 0x60000000),
          VariantType.Argument⟩) := by
  unfold read_variant
  refine ⟨fun h => by rw [if_pos h], fun h => ?_, fun h1 h2 => ?_⟩
  · rw [if_neg (by omega), if_pos (by omega)]
  · rw [if_neg h1, if_neg (by omega)]

/-- Witness for C7 in all three cases. -/
theorem c7_read_variant_cases_witness :
    read_variant false 0x20000000 = ⟨0x20000000, VariantType.Global⟩ ∧
    read_variant false 0x60000005 = ⟨5, VariantType.Local⟩ ∧
    read_variant true 0x50000000 = ⟨0x10000000, VariantType.Argument⟩ ∧
    read_variant false 0x50000000 = ⟨0x0FFFFFFF, VariantType.Argument⟩ :=
  ⟨((c7_read_variant_cases false 0x20000000).1 (by decide)).trans (by decide),
   ((c7_read_variant_cases false 0x60000005).2.1 (by decide)).trans (by decide),
   ((c7_read_variant_cases true 0x50000000).2.2 (by decide) (by decide)).trans (by decide),
   ((c7_read_variant_cases false 0x50000000).2.2 (by decide) (by decide)).trans (by decide)⟩

/-- Claim C8: the top-level parse fails with `TruncatedHeader` below 28
bytes, `BadMagic` on a wrong magic, `UnsupportedVersion` outside
`[12, 23]`, and decodes the header without these errors otherwise. -/
theorem c8_parse_header_spec (data : List Nat) :
    (data.length < 28 → parseHeader data = .error Err.TruncatedHeader) ∧
    (28 ≤ data.length → data.take 4 ≠ ifpsMagic →
      parseHeader data = .error Err.BadMagic) ∧
    (28 ≤ data.length → data.take 4 = ifpsMagic →
      (u32le data 4 < 12 ∨ 23 < u32le data 4) →
      parseHeader data = .error Err.UnsupportedVersion) ∧
    (28 ≤ data.length → data.take 4 = ifpsMagic →
      12 ≤ u32le data 4 → u32le data 4 ≤ 23 →
      parseHeader data = .ok
        { version := u32le data 4, count_types := u32le data 8,
          count_functions := u32le data 12, count_variables := u32le data 16,
          entry := u32le data 20, import_size := u32le data 24 }) := by
  unfold parseHeader
  refine ⟨fun h => by rw [if_pos h], fun h hm => ?_, fun h hm hv => ?_, fun h hm hv1 hv2 => ?_⟩
  · rw [if_neg (by omega), if_pos hm]
  · rw [if_neg (by omega), if_neg (by simp [hm]), if_pos (by omega)]
  · rw [if_neg (by omega), if_neg (by simp [hm]), if_neg (by omega)]

/-- Witness for C8 on a minimal valid header (magic, version 12, zero
counts). -/
theorem c8_parse_header_spec_witness :
    parseHeader wHeader = .ok
      { version := 12, count_types := 0, count_functions := 0,
        count_variables := 0, entry := 0, import_size := 0 } :=
  ((c8_parse_header_spec wHeader).2.2.2 (by decide) (by decide) (by decide)
    (by decide)).trans rfl

/-- Claim C9: on a freshly constructed `Set` cell of size 9 the keyed
assignment `set(True, key=8)` does NOT leave the bitmask `0x100` — it
raises `TypeError`, because `Variable.__init__` stores the dict
`{None: 0}` (a `Set` is not a container and its default is `0`) while the
keyed branch executes `self.data |= 1 << key` on that dict.  The key-9
bound check does fail with `IndexOutOfRange` as claimed (it precedes the
bit operation), and clearing a clear bit likewise raises `TypeError` on a
fresh cell instead of being a no-op; after an unkeyed bitmask assignment
the claimed mask behavior holds. -/
theorem c9_fresh_set_cell_eval :
    set9Var.data = .pydict [(Option.none, .int 0)] ∧
    set9Var.set (.bool true) (some 8) = .error Err.TypeErr ∧
    set9Var.set (.bool true) (some 9) = .error Err.IndexOutOfRange ∧
    set9Var.get (some 9) = .error Err.IndexOutOfRange ∧
    set9Var.set (.bool false) (some 3) = .error Err.TypeErr ∧
    ((set9Var.set (.int 0) Option.none).bind fun v =>
        v.set (.bool true) (some 8)).map Variable.data = .ok (.int 0x100) :=
  ⟨rfl, rfl, rfl, rfl, rfl, rfl⟩

/-- Claim C10: every word in `[0x40000000, 0x60000000)` falls through to
the subtraction, yields a negative `d = v - 0x60000000`, and decodes —
without any error path — to an Argument with index `-d = 0x60000000 - v`
when the unit's void flag is set and `~d = 0x60000000 - v - 1` otherwise.
(`read_variant` is a total function: the decoder rejects no word.) -/
theorem c10_read_variant_mid_range (void : Bool) (v : Nat)
    (h1 : 0x40000000 ≤ v) (h2 : v < 0x60000000) :
    read_variant void v =
      ⟨if void then (0x60000000 - (v : Int)) else (0x60000000 - (v : Int)) - 1,
        VariantType.Argument⟩ := by
  unfold read_variant pyNot
  rw [if_neg (by omega), if_neg (by omega)]
  cases void <;> simp [Variant.mk.injEq]

/-- Witness for C10 at both ends of the range and both void flags. -/
theorem c10_read_variant_mid_range_witness :
    read_variant true 0x40000000 = ⟨0x20000000, VariantType.Argument⟩ ∧
    read_variant false 0x5FFFFFFF = ⟨0, VariantType.Argument⟩ :=
  ⟨(c10_read_variant_mid_range true 0x40000000 (by decide) (by decide)).trans (by decide),
   (c10_read_variant_mid_range false 0x5FFFFFFF (by decide) (by decide)).trans (by decide)⟩

end IFPS
